import Mathlib

/-!
Verification of the Cold Leads ingestion pipeline.

This file gives a shallow embedding of the duplicate-aware lead ingestion
pipeline: the per-file reader (`readFile`), the extraction gateway's
response handling (`extractLeadsFromFile`), the batch processor
(`processFiles`), and the lead merger (`merge`, via `processedBatch`).
External effects (the file read, the AI call, JSON parsing, id and
timestamp generation, the completion order of concurrent tasks) are
passed in as explicit parameters, so theorems quantify over them.
-/

namespace ColdLeads

/-- A lead record as stored in the lead history (the `Lead` interface). -/
structure Lead where
  id : String
  fullName : String
  phoneNumber : String
  outreachMessage : String
  sourceFile : String
  isDuplicate : Bool
  extractedAt : String
deriving DecidableEq, Repr

/-- A candidate record returned by the extraction gateway
(the `ExtractedData` interface). -/
structure ExtractedData where
  fullName : String
  phoneNumber : String
  outreachMessage : String
deriving DecidableEq, Repr

/-- The phone numbers of a list of leads, in order
(`prevLeads.map(l => l.phoneNumber)`). -/
def phonesOf (leads : List Lead) : List String :=
  leads.map Lead.phoneNumber

/-- The duplicate-marking walk of the merge step: given the set of phone
numbers already seen (`existingPhones`, modelled as a list with membership
semantics) the batch is walked in order; a lead whose phone number is in
the set is copied with `isDuplicate := true`, otherwise it is copied with
`isDuplicate := false` and its phone number is added to the set. -/
def processedBatch (existingPhones : List String) : List Lead → List Lead
  | [] => []
  | lead :: rest =>
    if lead.phoneNumber ∈ existingPhones then
      { lead with isDuplicate := true } :: processedBatch existingPhones rest
    else
      { lead with isDuplicate := false } ::
        processedBatch (lead.phoneNumber :: existingPhones) rest

/-- The lead merger (the `setLeads` updater): the processed batch is
prepended to the previous history, which is kept unchanged. -/
def merge (prevLeads batch : List Lead) : List Lead :=
  processedBatch (phonesOf prevLeads) batch ++ prevLeads

lemma length_processedBatch (existingPhones : List String) (batch : List Lead) :
    (processedBatch existingPhones batch).length = batch.length := by
  induction batch generalizing existingPhones with
  | nil => rfl
  | cons lead rest ih =>
    simp only [processedBatch]
    split <;> simp [ih]

/-- Claim C1: for every history `H` and batch `B`, `merge H B` is the
materialized (duplicate-marked) batch, in its processed order, followed by
the entirety of `H`; in particular the result has length `|B| + |H|` and
dropping the first `|B|` elements recovers `H` exactly, so no lead of `H`
is mutated, reordered, or dropped. -/
theorem merge_appends_history (H B : List Lead) :
    merge H B = processedBatch (phonesOf H) B ++ H
    ∧ (merge H B).length = B.length + H.length
    ∧ (merge H B).drop B.length = H := by
  refine ⟨rfl, ?_, ?_⟩
  · simp [merge, length_processedBatch]
  · rw [merge, ← length_processedBatch (phonesOf H) B, List.drop_left]

/-- A default lead, used only as the default value of list indexing. -/
def defaultLead : Lead :=
  { id := "", fullName := "", phoneNumber := "", outreachMessage := "",
    sourceFile := "", isDuplicate := false, extractedAt := "" }

lemma decide_mem_cons_absorb {α : Type} [DecidableEq α] (p a : α) (s t : List α)
    (h : a ∈ s) :
    (decide (p ∈ s) || decide (p ∈ t)) = (decide (p ∈ s) || decide (p ∈ a :: t)) := by
  by_cases h1 : p = a
  · subst h1; simp [h]
  · simp [List.mem_cons, h1]

lemma decide_mem_cons_swap {α : Type} [DecidableEq α] (p a : α) (s t : List α) :
    (decide (p ∈ a :: s) || decide (p ∈ t))
      = (decide (p ∈ s) || decide (p ∈ a :: t)) := by
  by_cases h1 : p = a <;> by_cases h2 : p ∈ s <;> by_cases h3 : p ∈ t
    <;> simp [List.mem_cons, h1, h2, h3]

lemma processedBatch_getD_isDuplicate (existingPhones : List String)
    (batch : List Lead) (i : Nat) (h : i < batch.length) :
    ((processedBatch existingPhones batch).getD i defaultLead).isDuplicate
      = (decide ((batch.getD i defaultLead).phoneNumber ∈ existingPhones)
          || decide ((batch.getD i defaultLead).phoneNumber
                ∈ phonesOf (batch.take i))) := by
  induction batch generalizing existingPhones i with
  | nil => simp at h
  | cons lead rest ih =>
    cases i with
    | zero =>
      simp only [processedBatch, List.take_zero, phonesOf, List.map_nil]
      split <;> simp_all
    | succ i =>
      have hi : i < rest.length := Nat.lt_of_succ_lt_succ h
      have hgetD : (lead :: rest).getD (i + 1) defaultLead
          = rest.getD i defaultLead := rfl
      have htake : phonesOf ((lead :: rest).take (i + 1))
          = lead.phoneNumber :: phonesOf (rest.take i) := rfl
      by_cases hm : lead.phoneNumber ∈ existingPhones
      · have hstep :
            (processedBatch existingPhones (lead :: rest)).getD (i + 1) defaultLead
              = (processedBatch existingPhones rest).getD i defaultLead := by
          simp only [processedBatch]
          rw [if_pos hm]
          exact List.getD_cons_succ
        rw [hstep, ih existingPhones i hi, hgetD, htake]
        exact decide_mem_cons_absorb _ lead.phoneNumber _ _ hm
      · have hstep :
            (processedBatch existingPhones (lead :: rest)).getD (i + 1) defaultLead
              = (processedBatch (lead.phoneNumber :: existingPhones) rest).getD i
                  defaultLead := by
          simp only [processedBatch]
          rw [if_neg hm]
          exact List.getD_cons_succ
        rw [hstep, ih (lead.phoneNumber :: existingPhones) i hi, hgetD, htake]
        exact decide_mem_cons_swap _ lead.phoneNumber _ _

/-- Claim C2: walking the batch in order, the lead materialized at
position `i` carries `isDuplicate = true` exactly when its phone number
already occurs in the history `H` or occurred at an earlier position of
the batch `B`; the first occurrence (neither in `H` nor earlier in `B`)
carries `isDuplicate = false`. -/
theorem merge_duplicate_flag_spec (H B : List Lead) (i : Fin B.length) :
    ((merge H B).getD i.val defaultLead).isDuplicate
      = (decide ((B.getD i.val defaultLead).phoneNumber ∈ phonesOf H)
          || decide ((B.getD i.val defaultLead).phoneNumber
                ∈ phonesOf (B.take i.val))) := by
  have hlen : i.val < (processedBatch (phonesOf H) B).length := by
    rw [length_processedBatch]; exact i.isLt
  rw [merge, List.getD_eq_getElem?_getD, List.getElem?_append_left hlen,
    ← List.getD_eq_getElem?_getD]
  exact processedBatch_getD_isDuplicate (phonesOf H) B i.val i.isLt

/-- Claim C2 witness: a concrete run. The history holds phone "111"; the
batch holds phones "222", "111", "222". Position 0 is new, position 1
matches the history, position 2 repeats an earlier batch position. -/
theorem merge_duplicate_flag_spec_witness :
    ((merge
        [{ defaultLead with phoneNumber := "111" }]
        [{ defaultLead with phoneNumber := "222" },
         { defaultLead with phoneNumber := "111" },
         { defaultLead with phoneNumber := "222" }]).getD 2 defaultLead).isDuplicate
      = true := by
  have h := merge_duplicate_flag_spec
    [{ defaultLead with phoneNumber := "111" }]
    [{ defaultLead with phoneNumber := "222" },
     { defaultLead with phoneNumber := "111" },
     { defaultLead with phoneNumber := "222" }] ⟨2, by decide⟩
  rw [h]
  decide

/-- The fields of a lead other than the generated `id` and the
`extractedAt` timestamp. -/
structure LeadData where
  fullName : String
  phoneNumber : String
  outreachMessage : String
  sourceFile : String
  isDuplicate : Bool
deriving DecidableEq, Repr

/-- Forget the generated `id` and `extractedAt` fields of a lead. -/
def Lead.strip (l : Lead) : LeadData :=
  { fullName := l.fullName, phoneNumber := l.phoneNumber,
    outreachMessage := l.outreachMessage, sourceFile := l.sourceFile,
    isDuplicate := l.isDuplicate }

/-- A generator of per-lead ids and timestamps (`crypto.randomUUID()` and
`new Date().toISOString()`), indexed by the lead's position in the batch. -/
abbrev IdGen := Nat → String × String

/-- Materialization of candidate records into leads: each candidate,
paired with its source file name, becomes a lead with a generated id and
timestamp and `isDuplicate := false` (the flag is recomputed at merge
time). -/
def materializeFrom (gen : IdGen) :
    Nat → List (ExtractedData × String) → List Lead
  | _, [] => []
  | i, (c, src) :: rest =>
    { id := (gen i).1, fullName := c.fullName, phoneNumber := c.phoneNumber,
      outreachMessage := c.outreachMessage, sourceFile := src,
      isDuplicate := false, extractedAt := (gen i).2 }
      :: materializeFrom gen (i + 1) rest

/-- Materialize a whole batch of candidate records, ids starting at 0. -/
def materialize (gen : IdGen) (cands : List (ExtractedData × String)) :
    List Lead :=
  materializeFrom gen 0 cands

lemma strip_map_materializeFrom (gen : IdGen) (i : Nat)
    (cands : List (ExtractedData × String)) :
    (materializeFrom gen i cands).map Lead.strip
      = cands.map fun cs =>
          { fullName := cs.1.fullName, phoneNumber := cs.1.phoneNumber,
            outreachMessage := cs.1.outreachMessage, sourceFile := cs.2,
            isDuplicate := false } := by
  induction cands generalizing i with
  | nil => rfl
  | cons c rest ih =>
    cases c
    simp [materializeFrom, Lead.strip, ih]

lemma strip_setDuplicate (l : Lead) (b : Bool) :
    ({ l with isDuplicate := b } : Lead).strip
      = { l.strip with isDuplicate := b } := rfl

lemma strip_map_processedBatch (existingPhones : List String) (B1 B2 : List Lead)
    (h : B1.map Lead.strip = B2.map Lead.strip) :
    (processedBatch existingPhones B1).map Lead.strip
      = (processedBatch existingPhones B2).map Lead.strip := by
  induction B1 generalizing existingPhones B2 with
  | nil =>
    cases B2 with
    | nil => rfl
    | cons b bs => simp at h
  | cons a as ih =>
    cases B2 with
    | nil => simp at h
    | cons b bs =>
      simp only [List.map_cons, List.cons.injEq] at h
      obtain ⟨hab, hrest⟩ := h
      have hphone : a.phoneNumber = b.phoneNumber :=
        congrArg LeadData.phoneNumber hab
      simp only [processedBatch]
      by_cases hmem : a.phoneNumber ∈ existingPhones
      · rw [if_pos hmem, if_pos (hphone ▸ hmem)]
        simp only [List.map_cons]
        congr 1
        · rw [strip_setDuplicate, strip_setDuplicate]
          exact congrArg (fun d => { d with isDuplicate := true }) hab
        · exact ih existingPhones bs hrest
      · rw [if_neg hmem, if_neg (hphone ▸ hmem)]
        simp only [List.map_cons]
        congr 1
        · rw [strip_setDuplicate, strip_setDuplicate]
          exact congrArg (fun d => { d with isDuplicate := false }) hab
        · rw [show a.phoneNumber :: existingPhones
              = b.phoneNumber :: existingPhones from by rw [hphone]]
          exact ih (b.phoneNumber :: existingPhones) bs hrest

/-- Claim C9: `merge` is deterministic. Two runs on the same history and
the same candidate records, differing only in the generator used for ids
and timestamps, produce histories identical in content and order once the
generated id and timestamp fields are erased; in particular the computed
duplicate flags and the ordering are not affected by id generation. -/
theorem merge_deterministic_up_to_ids (H : List Lead)
    (cands : List (ExtractedData × String)) (gen1 gen2 : IdGen) :
    (merge H (materialize gen1 cands)).map Lead.strip
      = (merge H (materialize gen2 cands)).map Lead.strip := by
  have hmat : (materialize gen1 cands).map Lead.strip
      = (materialize gen2 cands).map Lead.strip := by
    rw [materialize, materialize, strip_map_materializeFrom,
      strip_map_materializeFrom]
  simp only [merge, List.map_append]
  rw [strip_map_processedBatch _ _ _ hmat]

/-- An uploaded file handle: its name and declared mime type. The raw
bytes stay behind the per-file oracle below. -/
structure FileInput where
  name : String
  type : String
deriving DecidableEq, Repr

/-- The per-file pipeline (read + extraction), abstracted as an oracle:
for a file it either yields the extracted candidate records (possibly
none) or fails with an error message (the thrown error's `message`). -/
abbrev FileOracle := FileInput → Except String (List ExtractedData)

/-- Successful candidates contributed by one file, each tagged with the
source file's name; a failing file contributes none (its per-file catch
returns the empty list). -/
def perFileLeads (oracle : FileOracle) (f : FileInput) :
    List (ExtractedData × String) :=
  match oracle f with
  | Except.ok data => data.map fun c => (c, f.name)
  | Except.error _ => []

/-- The error entry recorded for one file, if any: the per-file catch
pushes the string `file.name ++ ": " ++ err.message`. -/
def perFileError (oracle : FileOracle) (f : FileInput) : Option String :=
  match oracle f with
  | Except.ok _ => none
  | Except.error msg => some (f.name ++ ": " ++ msg)

/-- The fan-out over a batch, with per-file results reassembled in the
order the files were submitted: the flattened candidate list (grouped in
file order, within a file in extraction-response order) and the list of
per-file error entries (here in file order; claim C8 treats the
completion-order question). -/
def extractBatch (oracle : FileOracle) :
    List FileInput → List (ExtractedData × String) × List String
  | [] => ([], [])
  | f :: rest =>
    let tail := extractBatch oracle rest
    match oracle f with
    | Except.ok data => ((data.map fun c => (c, f.name)) ++ tail.1, tail.2)
    | Except.error msg => (tail.1, (f.name ++ ": " ++ msg) :: tail.2)

/-- The user-visible message of the oversized-batch rejection. -/
def batchTooLargeMessage : String :=
  "Please upload a maximum of 10 files at a time."

/-- The message thrown when zero candidates and zero errors were
produced. -/
def noLeadsFoundMessage : String :=
  "No valid leads found in the uploaded files."

/-- The message thrown when zero candidates but some errors were
produced, carrying the concatenated per-file error entries. -/
def batchExtractionFailedMessage (errors : List String) : String :=
  "Failed to extract leads from uploaded files. Errors: "
    ++ String.intercalate " | " errors

/-- The non-fatal warning shown on a successful batch that had some
per-file errors. -/
def someErrorsWarningMessage (errors : List String) : String :=
  "Processed with some errors: " ++ String.intercalate ", " errors

/-- The observable outcome of one `processFiles` call. `noOp` is the
early return on an empty file list (no status change, no message);
`batchTooLarge` is the pre-flight rejection; `batchFailed` is the catch
branch reached by a thrown aggregation error (status ERROR, message
shown, history untouched); `success` carries the new history installed by
`setLeads` and the optional non-fatal warning. -/
inductive ProcOutcome where
  | noOp
  | batchTooLarge (message : String)
  | batchFailed (message : String)
  | success (newHistory : List Lead) (warning : Option String)
deriving DecidableEq, Repr

/-- The batch processor `processFiles`, as a function of the previous
lead history, the submitted files, the per-file oracle and the id
generator. -/
def processFiles (prevLeads : List Lead) (files : List FileInput)
    (oracle : FileOracle) (gen : IdGen) : ProcOutcome :=
  if files.length = 0 then ProcOutcome.noOp
  else if files.length > 10 then ProcOutcome.batchTooLarge batchTooLargeMessage
  else
    let extracted := extractBatch oracle files
    if extracted.1.length = 0 ∧ extracted.2.length > 0 then
      ProcOutcome.batchFailed (batchExtractionFailedMessage extracted.2)
    else if extracted.1.length = 0 then
      ProcOutcome.batchFailed noLeadsFoundMessage
    else
      ProcOutcome.success (merge prevLeads (materialize gen extracted.1))
        (if extracted.2.length > 0
          then some (someErrorsWarningMessage extracted.2) else none)

/-- The lead history visible after a `processFiles` call: only the
success outcome installs a new history. -/
def historyAfter (prevLeads : List Lead) : ProcOutcome → List Lead
  | ProcOutcome.success newHistory _ => newHistory
  | _ => prevLeads

lemma extractBatch_fst (oracle : FileOracle) (files : List FileInput) :
    (extractBatch oracle files).1
      = (files.map (perFileLeads oracle)).flatten := by
  induction files with
  | nil => rfl
  | cons f rest ih =>
    simp only [extractBatch, List.map_cons, List.flatten_cons, ← ih,
      perFileLeads]
    cases oracle f <;> simp

lemma extractBatch_snd (oracle : FileOracle) (files : List FileInput) :
    (extractBatch oracle files).2 = files.filterMap (perFileError oracle) := by
  induction files with
  | nil => rfl
  | cons f rest ih =>
    simp only [extractBatch, List.filterMap_cons, perFileError]
    cases oracle f <;> simp [ih]

lemma length_materializeFrom (gen : IdGen) (i : Nat)
    (cands : List (ExtractedData × String)) :
    (materializeFrom gen i cands).length = cands.length := by
  induction cands generalizing i with
  | nil => rfl
  | cons c rest ih =>
    cases c
    simp [materializeFrom, ih]

/-- Claim C3 counterexample: the claim quantifies over every batch of
size at most 10, but on the empty batch (zero candidates, zero per-file
errors) `processFiles` returns early without reporting `NoLeadsFound`:
the guard `files.length === 0` comes before any aggregation. -/
theorem processFiles_empty_batch_noop :
    processFiles [] [] (fun _ => Except.error "boom") (fun _ => ("id", "t"))
      = ProcOutcome.noOp
    ∧ ProcOutcome.noOp ≠ ProcOutcome.batchFailed noLeadsFoundMessage := by
  exact ⟨rfl, by decide⟩

/-- Claim C3 (amended to nonempty batches): for every nonempty batch of
at most 10 files producing zero candidate records in total, the batch
fails with `NoLeadsFound` when zero per-file errors occurred, and with
`BatchExtractionFailed` carrying the concatenated per-file error messages
when one or more occurred; in both cases the lead history after the call
equals the history before the call. -/
theorem processFiles_zero_candidates_fails (prev : List Lead)
    (files : List FileInput) (oracle : FileOracle) (gen : IdGen)
    (hne : 0 < files.length) (hle : files.length ≤ 10)
    (hcand : (extractBatch oracle files).1 = []) :
    ((extractBatch oracle files).2 = [] →
        processFiles prev files oracle gen
          = ProcOutcome.batchFailed noLeadsFoundMessage)
    ∧ ((extractBatch oracle files).2 ≠ [] →
        processFiles prev files oracle gen
          = ProcOutcome.batchFailed
              (batchExtractionFailedMessage (extractBatch oracle files).2))
    ∧ historyAfter prev (processFiles prev files oracle gen) = prev := by
  have h0 : ¬ files.length = 0 := by omega
  have h10 : ¬ files.length > 10 := by omega
  have hout : processFiles prev files oracle gen
      = ProcOutcome.batchFailed
          (if (extractBatch oracle files).2 = [] then noLeadsFoundMessage
            else batchExtractionFailedMessage (extractBatch oracle files).2) := by
    by_cases herr : (extractBatch oracle files).2 = []
    · simp only [processFiles, if_neg h0, if_neg h10]
      simp [hcand, herr]
    · have hpos : 0 < (extractBatch oracle files).2.length :=
        List.length_pos.mpr herr
      simp only [processFiles, if_neg h0, if_neg h10]
      simp [hcand, hpos, herr]
  refine ⟨fun herr => ?_, fun herr => ?_, ?_⟩
  · rw [hout, if_pos herr]
  · rw [hout, if_neg herr]
  · rw [hout]
    rfl

/-- Claim C3 witness: one csv file whose extraction fails; the batch
fails with the concatenated error list and the (empty) history is kept. -/
theorem processFiles_zero_candidates_fails_witness :
    processFiles [] [{ name := "a.csv", type := "text/csv" }]
        (fun _ => Except.error "boom") (fun _ => ("id", "t"))
      = ProcOutcome.batchFailed
          (batchExtractionFailedMessage ["a.csv: boom"]) :=
  (processFiles_zero_candidates_fails []
      [{ name := "a.csv", type := "text/csv" }]
      (fun _ => Except.error "boom") (fun _ => ("id", "t"))
      (by decide) (by decide) rfl).2.1 (by decide)

/-- Claim C4: whenever at least one candidate record is produced, the
batch succeeds even if some files errored: the new history is exactly the
merge of the previous history with the materialized candidates (so it
grows by exactly the successful candidates, with the old history as an
unchanged suffix), the candidates and errors are collected file by file
(one failing file only contributes an error entry and never cancels the
sibling files' contributions), and the per-file errors are surfaced as a
non-fatal warning whose entries each name the failing file. -/
theorem processFiles_some_candidates_succeeds (prev : List Lead)
    (files : List FileInput) (oracle : FileOracle) (gen : IdGen)
    (hle : files.length ≤ 10)
    (hcand : (extractBatch oracle files).1 ≠ []) :
    processFiles prev files oracle gen
        = ProcOutcome.success
            (merge prev (materialize gen (extractBatch oracle files).1))
            (if 0 < (extractBatch oracle files).2.length
              then some (someErrorsWarningMessage (extractBatch oracle files).2)
              else none)
    ∧ (extractBatch oracle files).1 = (files.map (perFileLeads oracle)).flatten
    ∧ (extractBatch oracle files).2 = files.filterMap (perFileError oracle)
    ∧ (historyAfter prev (processFiles prev files oracle gen)).length
        = (extractBatch oracle files).1.length + prev.length
    ∧ (historyAfter prev (processFiles prev files oracle gen)).drop
        (extractBatch oracle files).1.length = prev := by
  have hfne : files ≠ [] := by
    intro hnil
    rw [hnil] at hcand
    exact hcand rfl
  have h0 : ¬ files.length = 0 := by
    simpa [List.length_eq_zero] using hfne
  have h10 : ¬ files.length > 10 := by omega
  have hlen1 : ¬ (extractBatch oracle files).1.length = 0 := by
    simpa [List.length_eq_zero] using hcand
  have hout : processFiles prev files oracle gen
      = ProcOutcome.success
          (merge prev (materialize gen (extractBatch oracle files).1))
          (if 0 < (extractBatch oracle files).2.length
            then some (someErrorsWarningMessage (extractBatch oracle files).2)
            else none) := by
    simp only [processFiles, if_neg h0, if_neg h10]
    have hc1 : ¬((extractBatch oracle files).1.length = 0
        ∧ (extractBatch oracle files).2.length > 0) := fun hc => hlen1 hc.1
    rw [if_neg hc1, if_neg hlen1]
  refine ⟨hout, extractBatch_fst oracle files, extractBatch_snd oracle files,
    ?_, ?_⟩
  · rw [hout]
    show (merge prev (materialize gen (extractBatch oracle files).1)).length = _
    rw [merge, List.length_append, length_processedBatch, materialize,
      length_materializeFrom]
  · rw [hout]
    show (merge prev (materialize gen (extractBatch oracle files).1)).drop _
        = prev
    rw [merge, ← length_materializeFrom gen 0 (extractBatch oracle files).1,
      ← length_processedBatch (phonesOf prev)
        (materializeFrom gen 0 (extractBatch oracle files).1), materialize,
      List.drop_left]

/-- Claim C4 witness: two files, one yielding a candidate and one
failing; the batch succeeds with the merged candidate and a warning
naming the failing file. -/
theorem processFiles_some_candidates_succeeds_witness :
    processFiles []
        [{ name := "a.csv", type := "text/csv" },
         { name := "b.csv", type := "text/csv" }]
        (fun f => if f.name = "a.csv"
          then Except.ok
            [{ fullName := "Bob", phoneNumber := "111", outreachMessage := "hi" }]
          else Except.error "boom")
        (fun _ => ("id", "t"))
      = ProcOutcome.success
          (merge []
            (materialize (fun _ => ("id", "t"))
              [({ fullName := "Bob", phoneNumber := "111",
                  outreachMessage := "hi" }, "a.csv")]))
          (some (someErrorsWarningMessage ["b.csv: boom"])) :=
  (processFiles_some_candidates_succeeds []
      [{ name := "a.csv", type := "text/csv" },
       { name := "b.csv", type := "text/csv" }]
      (fun f => if f.name = "a.csv"
        then Except.ok
          [{ fullName := "Bob", phoneNumber := "111", outreachMessage := "hi" }]
        else Except.error "boom")
      (fun _ => ("id", "t"))
      (by decide) (by decide)).1

/-- Claim C5: submitting more than 10 files is rejected up front with the
`BatchTooLarge` message; the outcome does not depend on the per-file
oracle or the id generator (no file is read, no extraction call is made),
and the lead history is unchanged. -/
theorem processFiles_batch_too_large (prev : List Lead)
    (files : List FileInput) (oracle : FileOracle) (gen : IdGen)
    (h : 10 < files.length) :
    processFiles prev files oracle gen
        = ProcOutcome.batchTooLarge batchTooLargeMessage
    ∧ (∀ (oracle2 : FileOracle) (gen2 : IdGen),
        processFiles prev files oracle2 gen2
          = processFiles prev files oracle gen)
    ∧ historyAfter prev (processFiles prev files oracle gen) = prev := by
  have h0 : ¬ files.length = 0 := by omega
  have hout : ∀ (o : FileOracle) (g : IdGen),
      processFiles prev files o g
        = ProcOutcome.batchTooLarge batchTooLargeMessage := by
    intro o g
    simp only [processFiles, if_neg h0, if_pos h]
  refine ⟨hout oracle gen, fun o2 g2 => ?_, ?_⟩
  · rw [hout o2 g2, hout oracle gen]
  · rw [hout oracle gen]
    rfl

/-- Claim C5 witness: eleven identical files are rejected with
`BatchTooLarge`. -/
theorem processFiles_batch_too_large_witness :
    processFiles []
        (List.replicate 11 { name := "a.csv", type := "text/csv" })
        (fun _ => Except.ok []) (fun _ => ("id", "t"))
      = ProcOutcome.batchTooLarge batchTooLargeMessage :=
  (processFiles_batch_too_large []
      (List.replicate 11 { name := "a.csv", type := "text/csv" })
      (fun _ => Except.ok []) (fun _ => ("id", "t")) (by decide)).1

/-- The fan-out/fan-in state of one batch run: one result slot per
submitted file (indexed by submission position, as `Promise.all`
reassembles results) and the error list, which grows in completion
order. -/
structure SchedState where
  slots : List (Option (List (ExtractedData × String)))
  errors : List String
deriving Repr

/-- The state before any per-file task completes: one empty slot per
file. -/
def initSlots (files : List FileInput) : SchedState :=
  { slots := files.map fun _ => none, errors := [] }

/-- Completion of the task for file `i`: its result is written into slot
`i` (a failing file contributes the empty list and appends its error
entry, in completion order). An out-of-range index completes nothing. -/
def completeTask (files : List FileInput) (oracle : FileOracle)
    (st : SchedState) (i : Nat) : SchedState :=
  match files[i]? with
  | none => st
  | some f =>
    { slots := st.slots.set i (some (perFileLeads oracle f)),
      errors :=
        match perFileError oracle f with
        | some e => st.errors ++ [e]
        | none => st.errors }

/-- Run a whole batch under a given completion order of the concurrent
per-file tasks. -/
def runSchedule (files : List FileInput) (oracle : FileOracle)
    (order : List Nat) : SchedState :=
  order.foldl (completeTask files oracle) (initSlots files)

/-- The candidate list assembled from the filled slots, in slot
(= submission) order. -/
def assembled (st : SchedState) : List (ExtractedData × String) :=
  (st.slots.map fun s => s.getD []).flatten

lemma completeTask_slots_length (files : List FileInput) (oracle : FileOracle)
    (st : SchedState) (i : Nat) :
    (completeTask files oracle st i).slots.length = st.slots.length := by
  simp only [completeTask]
  cases files[i]? <;> simp

lemma foldl_completeTask_getElem (files : List FileInput) (oracle : FileOracle)
    (order : List Nat) :
    ∀ (st : SchedState), st.slots.length = files.length →
      ∀ (j : Nat) (hj : j < files.length),
        ((order.foldl (completeTask files oracle) st).slots)[j]?
          = if j ∈ order
            then some (some (perFileLeads oracle (files.get ⟨j, hj⟩)))
            else st.slots[j]? := by
  induction order with
  | nil => intro st hlen j hj; simp
  | cons i rest ih =>
    intro st hlen j hj
    have hlen' : (completeTask files oracle st i).slots.length = files.length := by
      rw [completeTask_slots_length, hlen]
    rw [List.foldl_cons, ih (completeTask files oracle st i) hlen' j hj]
    by_cases hjr : j ∈ rest
    · simp [hjr, List.mem_cons]
    · rw [if_neg hjr]
      by_cases hij : j = i
      · subst hij
        have hfi : files[j]? = some (files.get ⟨j, hj⟩) := by
          rw [List.getElem?_eq_getElem hj]
          rfl
        have hset : (completeTask files oracle st j).slots[j]?
            = some (some (perFileLeads oracle (files.get ⟨j, hj⟩))) := by
          simp only [completeTask, hfi]
          exact List.getElem?_set_self (by rw [hlen]; exact hj)
        rw [hset, if_pos (List.mem_cons_self j rest)]
      · have hkeep : (completeTask files oracle st i).slots[j]?
            = st.slots[j]? := by
          simp only [completeTask]
          cases files[i]? with
          | none => rfl
          | some f => exact List.getElem?_set_ne (fun he => hij he.symm)
        rw [hkeep, if_neg (by simp [List.mem_cons, hij, hjr])]

lemma foldl_completeTask_length (files : List FileInput) (oracle : FileOracle)
    (order : List Nat) :
    ∀ st : SchedState,
      (order.foldl (completeTask files oracle) st).slots.length
        = st.slots.length := by
  induction order with
  | nil => intro st; rfl
  | cons i rest ih =>
    intro st
    rw [List.foldl_cons, ih, completeTask_slots_length]

lemma runSchedule_slots (files : List FileInput) (oracle : FileOracle)
    (order : List Nat) (hcover : ∀ i, i < files.length → i ∈ order) :
    (runSchedule files oracle order).slots
      = files.map fun f => some (perFileLeads oracle f) := by
  have hlen0 : (initSlots files).slots.length = files.length := by
    simp [initSlots]
  have hlen : (runSchedule files oracle order).slots.length = files.length := by
    rw [runSchedule, foldl_completeTask_length, hlen0]
  apply List.ext_getElem?
  intro n
  by_cases hn : n < files.length
  · rw [show (runSchedule files oracle order).slots
        = (order.foldl (completeTask files oracle) (initSlots files)).slots
        from rfl,
      foldl_completeTask_getElem files oracle order (initSlots files) hlen0 n hn,
      if_pos (hcover n hn), List.getElem?_map, List.getElem?_eq_getElem hn]
    rfl
  · have h1 : (runSchedule files oracle order).slots[n]? = none := by
      apply List.getElem?_eq_none
      rw [hlen]
      omega
    have h2 : (files.map fun f => some (perFileLeads oracle f))[n]? = none := by
      apply List.getElem?_eq_none
      rw [List.length_map]
      omega
    rw [h1, h2]

/-- Claim C8: for every batch, whatever the completion order of the
concurrent per-file tasks (any order covering every file index), the
candidate list assembled from the result slots equals the file-order
flattened extraction results: grouped in the order the files were
submitted, and within each file in extraction-response order. -/
theorem schedule_independent_assembly (files : List FileInput)
    (oracle : FileOracle) (order : List Nat)
    (hcover : ∀ i, i < files.length → i ∈ order) :
    assembled (runSchedule files oracle order) = (extractBatch oracle files).1 := by
  rw [assembled, runSchedule_slots files oracle order hcover, extractBatch_fst,
    List.map_map]
  rfl

/-- Claim C8 witness: two files completing in reversed order still
assemble in submission order. -/
theorem schedule_independent_assembly_witness :
    assembled
        (runSchedule
          [{ name := "a.csv", type := "text/csv" },
           { name := "b.csv", type := "text/csv" }]
          (fun f => if f.name = "a.csv"
            then Except.ok
              [{ fullName := "Bob", phoneNumber := "111", outreachMessage := "hi" }]
            else Except.ok
              [{ fullName := "Ann", phoneNumber := "222", outreachMessage := "yo" }])
          [1, 0])
      = (extractBatch
          (fun f => if f.name = "a.csv"
            then Except.ok
              [{ fullName := "Bob", phoneNumber := "111", outreachMessage := "hi" }]
            else Except.ok
              [{ fullName := "Ann", phoneNumber := "222", outreachMessage := "yo" }])
          [{ name := "a.csv", type := "text/csv" },
           { name := "b.csv", type := "text/csv" }]).1 :=
  schedule_independent_assembly
    [{ name := "a.csv", type := "text/csv" },
     { name := "b.csv", type := "text/csv" }]
    (fun f => if f.name = "a.csv"
      then Except.ok
        [{ fullName := "Bob", phoneNumber := "111", outreachMessage := "hi" }]
      else Except.ok
        [{ fullName := "Ann", phoneNumber := "222", outreachMessage := "yo" }])
    [1, 0] (by decide)

/-- The two renderings of a file's raw content that the reader can
produce: the base64 payload of the data URL (for binary reads) and the
decoded text (for text reads). -/
structure FileData where
  base64 : String
  text : String
deriving DecidableEq, Repr

/-- The outcome of `readFile`: a content string tagged with a mime type,
or one of the two rejection messages of the error taxonomy. -/
inductive ReadResult where
  | ok (content : String) (mimeType : String)
  | unsupportedFileType (message : String)
  | fileReadFailure (message : String)
deriving DecidableEq, Repr

/-- The file reader `readFile`: images (mime type starting with
`image/`) are read as a data URL whose base64 payload is kept, tagged
with the original mime type; csv/plain mime types, or `.csv`/`.txt` file
names, are read as text tagged `text/plain`; anything else is rejected.
The underlying read is the `read` parameter; its failure fires the
`onerror` rejection. -/
def readFile (file : FileInput) (read : Except Unit FileData) : ReadResult :=
  if file.type.startsWith "image/" then
    match read with
    | Except.ok d => ReadResult.ok d.base64 file.type
    | Except.error _ =>
      ReadResult.fileReadFailure ("Failed to read file: " ++ file.name)
  else if file.type = "text/csv" ∨ file.type = "text/plain"
      ∨ file.name.endsWith ".csv" ∨ file.name.endsWith ".txt" then
    match read with
    | Except.ok d => ReadResult.ok d.text "text/plain"
    | Except.error _ =>
      ReadResult.fileReadFailure ("Failed to read file: " ++ file.name)
  else
    ReadResult.unsupportedFileType ("Unsupported file type: " ++ file.name)

/-- The content kind the spec's File Decoder contract assigns to a
file. -/
inductive ContentKind where
  | image (mime : String)
  | plainText
  | unsupported
deriving DecidableEq, Repr

/-- Modelled from the spec's File Decoder contract: classify the file
first (image by mime type; plain text by mime type or by the file-name
extension; otherwise unsupported). -/
def classifyFile (file : FileInput) : ContentKind :=
  if file.type.startsWith "image/" then ContentKind.image file.type
  else if file.type = "text/csv" ∨ file.type = "text/plain"
      ∨ file.name.endsWith ".csv" ∨ file.name.endsWith ".txt" then
    ContentKind.plainText
  else ContentKind.unsupported

/-- Modelled from the spec's File Decoder contract, per content kind: an
unsupported kind fails with `UnsupportedFileType` carrying the file name;
an image produces the base64 payload tagged with the original mime type;
a text kind produces the raw decoded text tagged as plain text; a failed
read surfaces as `FileReadFailure` carrying the file name. -/
def readFileSpecKind (file : FileInput) (read : Except Unit FileData) :
    ContentKind → ReadResult
  | ContentKind.unsupported =>
    ReadResult.unsupportedFileType ("Unsupported file type: " ++ file.name)
  | ContentKind.image mime =>
    match read with
    | Except.ok d => ReadResult.ok d.base64 mime
    | Except.error _ =>
      ReadResult.fileReadFailure ("Failed to read file: " ++ file.name)
  | ContentKind.plainText =>
    match read with
    | Except.ok d => ReadResult.ok d.text "text/plain"
    | Except.error _ =>
      ReadResult.fileReadFailure ("Failed to read file: " ++ file.name)

/-- Modelled from the spec's File Decoder contract, following its words:
classify the file, then decode it according to its content kind. -/
def readFileSpec (file : FileInput) (read : Except Unit FileData) : ReadResult :=
  readFileSpecKind file read (classifyFile file)

/-- Claim C7: for every file handle and every underlying read outcome,
the reader behaves exactly as the spec's File Decoder contract states:
base64 payload tagged with the original mime type for images, raw text
tagged as plain text for csv/plain mime types or `.csv`/`.txt` names,
`UnsupportedFileType` with the file name otherwise, and `FileReadFailure`
with the file name when the read itself fails. -/
theorem readFile_meets_spec (file : FileInput) (read : Except Unit FileData) :
    readFile file read = readFileSpec file read := by
  by_cases himg : file.type.startsWith "image/"
  · have hk : classifyFile file = ContentKind.image file.type := by
      simp only [classifyFile, if_pos himg]
    simp only [readFile, readFileSpec, hk, readFileSpecKind, if_pos himg]
  · by_cases htxt : file.type = "text/csv" ∨ file.type = "text/plain"
        ∨ file.name.endsWith ".csv" ∨ file.name.endsWith ".txt"
    · have hk : classifyFile file = ContentKind.plainText := by
        simp only [classifyFile, if_neg himg, if_pos htxt]
      simp only [readFile, readFileSpec, hk, readFileSpecKind, if_neg himg,
        if_pos htxt]
    · have hk : classifyFile file = ContentKind.unsupported := by
        simp only [classifyFile, if_neg himg, if_neg htxt]
      simp only [readFile, readFileSpec, hk, readFileSpecKind, if_neg himg,
        if_neg htxt]

/-- A minimal JSON value: what a successful `JSON.parse` yields. -/
inductive Json where
  | null
  | str (s : String)
  | num (n : Int)
  | arr (elems : List Json)
  | obj (fields : List (String × Json))

/-- Reading a string field of a parsed record, as the downstream
`item.field` accesses do: an absent or non-string field reads as nothing
(`undefined`). -/
def Json.getStr (j : Json) (key : String) : Option String :=
  match j with
  | Json.obj fields =>
    match fields.lookup key with
    | some (Json.str s) => some s
    | _ => none
  | _ => none

/-- `cleanJsonOutput`: a falsy (empty) input yields the text of an empty
array; otherwise the markdown code fences are replaced away and the
result is trimmed. -/
def cleanJsonOutput (text : String) : String :=
  if text = "" then "[]"
  else ((text.replace "```json" "").replace "```" "").trim

/-- The single error message every gateway failure is collapsed into. -/
def extractionFailureMessage : String :=
  "Failed to extract data. The file might be unclear or the AI could not find valid leads."

/-- The extraction gateway's response handling: `call` is the underlying
AI call, yielding the optional response text or failing; `jsonParse`
models `JSON.parse`, yielding the parsed value or a parse error. A failed
call or a parse error is caught and collapsed into the single failure
message; an absent or empty response text returns an empty array; and a
successfully parsed value is returned as-is — the `as ExtractedData[]`
cast performs no field validation. -/
def extractLeadsFromFile (jsonParse : String → Except String Json)
    (call : Except String (Option String)) : Except String Json :=
  match call with
  | Except.error _ => Except.error extractionFailureMessage
  | Except.ok none => Except.ok (Json.arr [])
  | Except.ok (some t) =>
    if t = "" then Except.ok (Json.arr [])
    else
      match jsonParse (cleanJsonOutput t) with
      | Except.ok parsed => Except.ok parsed
      | Except.error _ => Except.error extractionFailureMessage

/-- Claim C6 counterexample: a syntactically valid JSON response holding
one record that misses the required `phoneNumber` and `outreachMessage`
fields (the text `[\x7b"fullName": "Bob"\x7d]`, on which `JSON.parse`
yields the modelled object) is NOT rejected as an `ExtractionFailure`:
the gateway returns it as a success, and the record's required fields
read as absent downstream — the missing-field record is propagated. -/
theorem extract_missing_field_propagates :
    extractLeadsFromFile
        (fun _ => Except.ok (Json.arr [Json.obj [("fullName", Json.str "Bob")]]))
        (Except.ok (some "[\x7b\"fullName\": \"Bob\"\x7d]"))
      = Except.ok (Json.arr [Json.obj [("fullName", Json.str "Bob")]])
    ∧ extractLeadsFromFile
        (fun _ => Except.ok (Json.arr [Json.obj [("fullName", Json.str "Bob")]]))
        (Except.ok (some "[\x7b\"fullName\": \"Bob\"\x7d]"))
      ≠ Except.error extractionFailureMessage
    ∧ (Json.obj [("fullName", Json.str "Bob")]).getStr "phoneNumber" = none
    ∧ (Json.obj [("fullName", Json.str "Bob")]).getStr "fullName"
      = some "Bob" := by
  refine ⟨rfl, ?_, rfl, rfl⟩
  intro h
  exact Except.noConfusion ((rfl :
    extractLeadsFromFile
        (fun _ => Except.ok (Json.arr [Json.obj [("fullName", Json.str "Bob")]]))
        (Except.ok (some "[\x7b\"fullName\": \"Bob\"\x7d]"))
      = Except.ok (Json.arr [Json.obj [("fullName", Json.str "Bob")]])) ▸ h)

/-- Claim C6 (amended): an underlying call failure, and an unparsable
payload, are each collapsed into the single `ExtractionFailure` message;
an absent response text yields an empty list; but a successfully parsed
payload is returned as-is, with no validation of the required fields, so
missing-field records are propagated rather than rejected. -/
theorem extract_error_collapsing (jsonParse : String → Except String Json)
    (call : Except String (Option String)) :
    (∀ e, call = Except.error e →
        extractLeadsFromFile jsonParse call
          = Except.error extractionFailureMessage)
    ∧ (call = Except.ok none →
        extractLeadsFromFile jsonParse call = Except.ok (Json.arr []))
    ∧ (∀ t e, call = Except.ok (some t) → ¬ t = "" →
        jsonParse (cleanJsonOutput t) = Except.error e →
        extractLeadsFromFile jsonParse call
          = Except.error extractionFailureMessage)
    ∧ (∀ t j, call = Except.ok (some t) → ¬ t = "" →
        jsonParse (cleanJsonOutput t) = Except.ok j →
        extractLeadsFromFile jsonParse call = Except.ok j) := by
  refine ⟨?_, ?_, ?_, ?_⟩
  · intro e he
    rw [he]
    rfl
  · intro he
    rw [he]
    rfl
  · intro t e ht hne hp
    rw [ht]
    simp only [extractLeadsFromFile, if_neg hne, hp]
  · intro t j ht hne hp
    rw [ht]
    simp only [extractLeadsFromFile, if_neg hne, hp]

/-- Claim C6 witness: a parse error on a nonempty response is collapsed
into the single failure message. -/
theorem extract_error_collapsing_witness :
    extractLeadsFromFile (fun _ => Except.error "SyntaxError")
        (Except.ok (some "not json"))
      = Except.error extractionFailureMessage :=
  (extract_error_collapsing (fun _ => Except.error "SyntaxError")
      (Except.ok (some "not json"))).2.2.1 "not json" "SyntaxError" rfl
    (by decide) rfl

/-- The leads of a history with phone number `p` that are marked as new
(not duplicates). -/
def newLeadsFor (p : String) (H : List Lead) : List Lead :=
  H.filter fun l => l.phoneNumber == p && !l.isDuplicate

/-- The duplicate count displayed by the app
(`leads.filter(l => l.isDuplicate).length`). -/
def duplicateCount (H : List Lead) : Nat :=
  (H.filter fun l => l.isDuplicate).length

/-- The number of leads marked as new. -/
def newLeadCount (H : List Lead) : Nat :=
  (H.filter fun l => !l.isDuplicate).length

/-- The lead histories reachable from the empty history by any sequence
of merges. -/
inductive ReachableHistory : List Lead → Prop where
  | empty : ReachableHistory []
  | step (H B : List Lead) : ReachableHistory H → ReachableHistory (merge H B)

lemma phonesOf_processedBatch (seen : List String) (B : List Lead) :
    phonesOf (processedBatch seen B) = phonesOf B := by
  induction B generalizing seen with
  | nil => rfl
  | cons l rest ih =>
    simp only [processedBatch]
    split
    · show l.phoneNumber :: phonesOf (processedBatch seen rest)
        = l.phoneNumber :: phonesOf rest
      rw [ih]
    · show l.phoneNumber :: phonesOf (processedBatch (l.phoneNumber :: seen) rest)
        = l.phoneNumber :: phonesOf rest
      rw [ih]

lemma newLeadsFor_processedBatch_of_mem (p : String) (seen : List String)
    (B : List Lead) (hp : p ∈ seen) :
    newLeadsFor p (processedBatch seen B) = [] := by
  induction B generalizing seen with
  | nil => rfl
  | cons l rest ih =>
    by_cases hm : l.phoneNumber ∈ seen
    · have hstep : processedBatch seen (l :: rest)
          = { l with isDuplicate := true } :: processedBatch seen rest := by
        simp only [processedBatch]
        rw [if_pos hm]
      rw [hstep, newLeadsFor, List.filter_cons_of_neg (by simp)]
      exact ih seen hp
    · have hlp : ¬ l.phoneNumber = p := fun he => hm (by rw [he]; exact hp)
      have hstep : processedBatch seen (l :: rest)
          = { l with isDuplicate := false }
              :: processedBatch (l.phoneNumber :: seen) rest := by
        simp only [processedBatch]
        rw [if_neg hm]
      rw [hstep, newLeadsFor, List.filter_cons_of_neg (by simp [hlp])]
      exact ih (l.phoneNumber :: seen) (List.mem_cons_of_mem _ hp)

lemma newLeadsFor_eq_nil_of_not_mem (p : String) (H : List Lead)
    (hp : p ∉ phonesOf H) :
    newLeadsFor p H = [] := by
  simp only [newLeadsFor, List.filter_eq_nil_iff]
  intro l hl h
  rw [Bool.and_eq_true, beq_iff_eq] at h
  exact hp (h.1 ▸ List.mem_map_of_mem Lead.phoneNumber hl)

lemma length_newLeadsFor_processedBatch_of_not_mem (p : String)
    (seen : List String) (B : List Lead) (hp : p ∉ seen) :
    (newLeadsFor p (processedBatch seen B)).length
      = if p ∈ phonesOf B then 1 else 0 := by
  induction B generalizing seen with
  | nil => simp [newLeadsFor, processedBatch, phonesOf]
  | cons l rest ih =>
    by_cases hm : l.phoneNumber ∈ seen
    · have hlp : ¬ l.phoneNumber = p := fun he => hp (he ▸ hm)
      have hstep : processedBatch seen (l :: rest)
          = { l with isDuplicate := true } :: processedBatch seen rest := by
        simp only [processedBatch]
        rw [if_pos hm]
      have hiff : p ∈ phonesOf (l :: rest) ↔ p ∈ phonesOf rest := by
        simp only [phonesOf, List.map_cons, List.mem_cons]
        constructor
        · rintro (h | h)
          · exact absurd h.symm hlp
          · exact h
        · exact Or.inr
      rw [hstep, newLeadsFor, List.filter_cons_of_neg (by simp)]
      rw [show (List.filter
            (fun l => l.phoneNumber == p && !l.isDuplicate)
            (processedBatch seen rest)).length
          = (newLeadsFor p (processedBatch seen rest)).length from rfl,
        ih seen hp, if_congr hiff rfl rfl]
    · have hstep : processedBatch seen (l :: rest)
          = { l with isDuplicate := false }
              :: processedBatch (l.phoneNumber :: seen) rest := by
        simp only [processedBatch]
        rw [if_neg hm]
      by_cases hpl : p = l.phoneNumber
      · rw [hstep, newLeadsFor,
          List.filter_cons_of_pos (by simp [hpl.symm])]
        have hnil : newLeadsFor p (processedBatch (l.phoneNumber :: seen) rest)
            = [] :=
          newLeadsFor_processedBatch_of_mem p (l.phoneNumber :: seen) rest
            (by rw [hpl]; exact List.mem_cons_self _ _)
        rw [show List.filter
              (fun l => l.phoneNumber == p && !l.isDuplicate)
              (processedBatch (l.phoneNumber :: seen) rest)
            = newLeadsFor p (processedBatch (l.phoneNumber :: seen) rest)
            from rfl,
          hnil]
        have hin : p ∈ phonesOf (l :: rest) := by
          simp [phonesOf, List.mem_cons, hpl]
        rw [if_pos hin]
        rfl
      · have hiff : p ∈ phonesOf (l :: rest) ↔ p ∈ phonesOf rest := by
          simp only [phonesOf, List.map_cons, List.mem_cons]
          constructor
          · rintro (h | h)
            · exact absurd h hpl
            · exact h
          · exact Or.inr
        have hp' : p ∉ l.phoneNumber :: seen := by
          intro hc
          rcases List.mem_cons.mp hc with h | h
          · exact hpl h
          · exact hp h
        have hlp : ¬ l.phoneNumber = p := fun he => hpl he.symm
        rw [hstep, newLeadsFor, List.filter_cons_of_neg (by simp [hlp])]
        rw [show (List.filter
              (fun l => l.phoneNumber == p && !l.isDuplicate)
              (processedBatch (l.phoneNumber :: seen) rest)).length
            = (newLeadsFor p
                (processedBatch (l.phoneNumber :: seen) rest)).length from rfl,
          ih (l.phoneNumber :: seen) hp', if_congr hiff rfl rfl]

lemma card_insert_erase {α : Type} [DecidableEq α] (a : α) (Y : Finset α) :
    (insert a Y).card = (Y.erase a).card + 1 := by
  by_cases ha : a ∈ Y
  · rw [Finset.insert_eq_self.mpr ha, ← Finset.card_erase_add_one ha]
  · rw [Finset.card_insert_of_not_mem ha, Finset.erase_eq_of_not_mem ha]

lemma newLeadCount_processedBatch (seen : List String) (B : List Lead) :
    newLeadCount (processedBatch seen B)
      = ((phonesOf B).toFinset \ seen.toFinset).card := by
  induction B generalizing seen with
  | nil => simp [newLeadCount, processedBatch, phonesOf]
  | cons l rest ih =>
    by_cases hm : l.phoneNumber ∈ seen
    · have hstep : processedBatch seen (l :: rest)
          = { l with isDuplicate := true } :: processedBatch seen rest := by
        simp only [processedBatch]
        rw [if_pos hm]
      rw [hstep, newLeadCount, List.filter_cons_of_neg (by simp)]
      rw [show (List.filter (fun l => !l.isDuplicate)
            (processedBatch seen rest)).length
          = newLeadCount (processedBatch seen rest) from rfl, ih seen]
      rw [show phonesOf (l :: rest) = l.phoneNumber :: phonesOf rest from rfl,
        List.toFinset_cons,
        Finset.insert_sdiff_of_mem _ (List.mem_toFinset.mpr hm)]
    · have hstep : processedBatch seen (l :: rest)
          = { l with isDuplicate := false }
              :: processedBatch (l.phoneNumber :: seen) rest := by
        simp only [processedBatch]
        rw [if_neg hm]
      rw [hstep, newLeadCount, List.filter_cons_of_pos (by simp)]
      rw [List.length_cons,
        show (List.filter (fun l => !l.isDuplicate)
            (processedBatch (l.phoneNumber :: seen) rest)).length
          = newLeadCount (processedBatch (l.phoneNumber :: seen) rest) from rfl,
        ih (l.phoneNumber :: seen)]
      rw [show phonesOf (l :: rest) = l.phoneNumber :: phonesOf rest from rfl,
        List.toFinset_cons, List.toFinset_cons, Finset.sdiff_insert,
        Finset.insert_sdiff_of_not_mem _
          (fun hc => hm (List.mem_toFinset.mp hc)),
        card_insert_erase]

lemma newLeadCount_add_duplicateCount (H : List Lead) :
    newLeadCount H + duplicateCount H = H.length := by
  induction H with
  | nil => rfl
  | cons l rest ih =>
    simp only [newLeadCount, duplicateCount, List.length_cons] at *
    by_cases hd : l.isDuplicate
    · rw [List.filter_cons_of_neg (by simp [hd]),
        List.filter_cons_of_pos (by simp [hd]), List.length_cons]
      omega
    · rw [List.filter_cons_of_pos (by simp [hd]),
        List.filter_cons_of_neg (by simp [hd]), List.length_cons]
      omega

lemma merge_preserves_inv (H B : List Lead)
    (h1 : ∀ p, p ∈ phonesOf H → (newLeadsFor p H).length = 1)
    (h2 : newLeadCount H = (phonesOf H).toFinset.card) :
    (∀ p, p ∈ phonesOf (merge H B) → (newLeadsFor p (merge H B)).length = 1)
    ∧ newLeadCount (merge H B) = (phonesOf (merge H B)).toFinset.card := by
  have hphones : phonesOf (merge H B) = phonesOf B ++ phonesOf H := by
    rw [merge, phonesOf, List.map_append]
    rw [show List.map Lead.phoneNumber (processedBatch (phonesOf H) B)
        = phonesOf (processedBatch (phonesOf H) B) from rfl,
      phonesOf_processedBatch]
    rfl
  constructor
  · intro p hp
    rw [merge, newLeadsFor, List.filter_append]
    rw [show List.filter (fun l => l.phoneNumber == p && !l.isDuplicate)
          (processedBatch (phonesOf H) B)
        = newLeadsFor p (processedBatch (phonesOf H) B) from rfl,
      show List.filter (fun l => l.phoneNumber == p && !l.isDuplicate) H
        = newLeadsFor p H from rfl]
    by_cases hh : p ∈ phonesOf H
    · rw [newLeadsFor_processedBatch_of_mem p (phonesOf H) B hh,
        List.nil_append]
      exact h1 p hh
    · have hb : p ∈ phonesOf B := by
        rw [hphones] at hp
        rcases List.mem_append.mp hp with h | h
        · exact h
        · exact absurd h hh
      rw [newLeadsFor_eq_nil_of_not_mem p H hh, List.length_append,
        length_newLeadsFor_processedBatch_of_not_mem p (phonesOf H) B hh,
        if_pos hb]
      rfl
  · have hsplit : newLeadCount (merge H B)
        = newLeadCount (processedBatch (phonesOf H) B) + newLeadCount H := by
      rw [merge, newLeadCount, List.filter_append, List.length_append]
      rfl
    rw [hsplit, newLeadCount_processedBatch, h2, Finset.card_sdiff_add_card,
      hphones, List.toFinset_append]

/-- Claim C10: in every lead history reachable from the empty history by
any sequence of merges, every phone number present in the history has
exactly one lead carrying it with `isDuplicate = false`; the displayed
new-leads count (total minus duplicates) equals the number of distinct
phone numbers in the history; and once a phone number is present, any
further merge leaves its unique new-marked lead untouched (so the
new-marked lead is the earliest-merged one). -/
theorem reachable_history_unique_new_lead (H : List Lead)
    (hr : ReachableHistory H) :
    (∀ p, p ∈ phonesOf H → (newLeadsFor p H).length = 1)
    ∧ H.length - duplicateCount H = (phonesOf H).toFinset.card
    ∧ ∀ B p, p ∈ phonesOf H →
        newLeadsFor p (merge H B) = newLeadsFor p H := by
  have main : (∀ p, p ∈ phonesOf H → (newLeadsFor p H).length = 1)
      ∧ newLeadCount H = (phonesOf H).toFinset.card := by
    induction hr with
    | empty =>
      constructor
      · intro p hp
        simp [phonesOf] at hp
      · rfl
    | step H B _ ih => exact merge_preserves_inv H B ih.1 ih.2
  refine ⟨main.1, ?_, ?_⟩
  · have hpart := newLeadCount_add_duplicateCount H
    have := main.2
    omega
  · intro B p hp
    rw [merge, newLeadsFor, List.filter_append,
      show List.filter (fun l => l.phoneNumber == p && !l.isDuplicate)
          (processedBatch (phonesOf H) B)
        = newLeadsFor p (processedBatch (phonesOf H) B) from rfl,
      newLeadsFor_processedBatch_of_mem p (phonesOf H) B hp, List.nil_append]
    rfl

/-- Claim C10 witness: merging a batch with phones "111", "111", "222"
into the empty history gives a reachable history where phone "111" has
exactly one new-marked lead, and the new-leads count is 2, the number of
distinct phones. -/
theorem reachable_history_unique_new_lead_witness :
    (newLeadsFor "111"
        (merge [] [{ defaultLead with phoneNumber := "111" },
                   { defaultLead with phoneNumber := "111" },
                   { defaultLead with phoneNumber := "222" }])).length = 1 :=
  (reachable_history_unique_new_lead
      (merge [] [{ defaultLead with phoneNumber := "111" },
                 { defaultLead with phoneNumber := "111" },
                 { defaultLead with phoneNumber := "222" }])
      (ReachableHistory.step []
        [{ defaultLead with phoneNumber := "111" },
         { defaultLead with phoneNumber := "111" },
         { defaultLead with phoneNumber := "222" }]
        ReachableHistory.empty)).1 "111" (by decide)

end ColdLeads
